import Mathlib

/-!
Verification development for the true-hire-backend CV shortlisting service.

The Python source is shallowly embedded: pure fragments become Lean
functions, effectful calls (the generative model, the embedding provider,
the vector-store backend, id/timestamp generation) become oracle parameters
collected in an environment record, exceptions become `Except`, and Python
floats are idealized as exact rationals.  All definitions are kernel
executable; rational arithmetic is expressed through `mkRat` so that
concrete runs reduce inside the kernel.
-/

namespace TrueHire

/-! ### Rational helpers

Python float arithmetic is idealized as exact arithmetic on rationals.
`qSub` is subtraction written via `mkRat` (proved equal to ordinary
subtraction in `qSub_eq_sub`).  `round3` models `round(x, 3)`; Python uses
round-half-to-even on binary floats, which differs from this half-up
rounding only at exact ties, immaterial to the claims below. -/

def qSub (a b : ℚ) : ℚ := mkRat (a.num * b.den - b.num * a.den) (a.den * b.den)

theorem qSub_eq_sub (a b : ℚ) : qSub a b = a - b := by
  have ha : (a.den : ℚ) ≠ 0 := by exact_mod_cast a.den_nz
  have hb : (b.den : ℚ) ≠ 0 := by exact_mod_cast b.den_nz
  have h1 : (a.num : ℚ) = a * a.den := (div_eq_iff ha).mp (Rat.num_div_den a)
  have h2 : (b.num : ℚ) = b * b.den := (div_eq_iff hb).mp (Rat.num_div_den b)
  rw [qSub, Rat.mkRat_eq_div]
  push_cast
  rw [div_eq_iff (mul_ne_zero ha hb), h1, h2]
  ring

def round3 (q : ℚ) : ℚ := mkRat (Int.fdiv (q.num * 2000 + q.den) (2 * (q.den : ℤ))) 1000

/-! ### Python string helpers

Python strings are modelled by Lean strings; slicing and length act on the
code-point list, as Python slicing does.  `pyStrip` models `str.strip()`
(Python also strips a few rarer whitespace code points; the difference is
immaterial here).  `strContains` models the Python substring test
`needle in hay`. -/

def pyStrip (s : String) : String :=
  ⟨((s.data.dropWhile Char.isWhitespace).reverse.dropWhile Char.isWhitespace).reverse⟩

def pySlice (s : String) (n : Nat) : String := ⟨s.data.take n⟩

def pyLen (s : String) : Nat := s.data.length

def strContains (hay needle : String) : Bool :=
  hay.data.tails.any (fun t => needle.data.isPrefixOf t)

/-! ### Python dict operations on association lists

Metadata dictionaries are association lists.  `pyDictInsert` models
`d[k] = v` (replace in place when the key exists, append otherwise) and
`pyUpdate` models the dict-literal spread, where later keys override
earlier ones. -/

def pyDictInsert (l : List (String × String)) (k v : String) : List (String × String) :=
  if (l.map Prod.fst).contains k then
    l.map (fun kv => if kv.1 = k then (k, v) else kv)
  else l ++ [(k, v)]

def pyUpdate (base upd : List (String × String)) : List (String × String) :=
  upd.foldl (fun acc kv => pyDictInsert acc kv.1 kv.2) base

/-! ### Metadata extractor (src/utils/metadata_extractor.py)

`extract_parameters_with_llm` builds a prompt, invokes the Gemini model and
parses the reply as JSON with an ordered fallback.  The generative model is
an oracle (`LLMBehavior`); `jsonLoads` is an oracle standing for Python
`json.loads` (`none` = `json.JSONDecodeError`), and `braceSearch` stands
for the regex search for the first brace-delimited substring.  A parsed
JSON value is either an object (`dict`, key-unique entries, values
flattened to strings — only the key structure matters to the claims) or a
non-object value.  For a non-object, the backfill loop
`for key in key_params: if key not in params: params[key] = ""` either
raises at the first schema key whose membership test fails or errors on
assignment (caught by the blanket handler, yielding defaults), or — when
every schema key passes Python's `in` test — completes without any
assignment and the non-mapping value is returned unchanged; the flag
`passesAllKeyTests` records which of the two happens. -/

inductive PyParsed where
  | dict (entries : List (String × String))
  | nonDict (passesAllKeyTests : Bool)
deriving DecidableEq, Repr

inductive LLMBehavior where
  | raises (msg : String)
  | replies (content : String)
deriving DecidableEq, Repr

inductive ExtractResult where
  | mapping (entries : List (String × String))
  | raw (v : PyParsed)
deriving DecidableEq, Repr

/-- The backfill loop `for key in key_params: if key not in params: params[key] = ""`,
run left to right over the schema. -/
def backfillKeys (entries : List (String × String)) :
    List (String × String) → List (String × String)
  | [] => entries
  | kv :: rest =>
    backfillKeys
      (if (entries.map Prod.fst).contains kv.1 then entries else entries ++ [(kv.1, "")])
      rest

/-- The default result `{k: "" for k in key_params}`: a dict comprehension,
i.e. one entry per distinct schema key in first-occurrence order, each
mapped to the empty string — exactly the backfill loop started from the
empty dict. -/
def extractDefaults (key_params : List (String × String)) : List (String × String) :=
  backfillKeys [] key_params

def finalizeExtract (key_params : List (String × String)) : PyParsed → ExtractResult
  | .dict entries => .mapping (backfillKeys entries key_params)
  | .nonDict true => .raw (.nonDict true)
  | .nonDict false => .mapping (extractDefaults key_params)

def extract_parameters_with_llm (jsonLoads : String → Option PyParsed)
    (braceSearch : String → Option String) (llm : LLMBehavior)
    (key_params : List (String × String)) : ExtractResult :=
  match llm with
  | .raises _ => .mapping (extractDefaults key_params)
  | .replies text =>
    if pyStrip text = "" then .mapping (extractDefaults key_params)
    else
      match jsonLoads text with
      | some v => finalizeExtract key_params v
      | none =>
        match braceSearch text with
        | some sub =>
          match jsonLoads sub with
          | some v => finalizeExtract key_params v
          | none => .mapping (extractDefaults key_params)
        | none => .mapping (extractDefaults key_params)

/-- The entries of a parsed JSON value as the backfill loop sees them: an
object's own entries; a non-object value contributes none. -/
def entriesOfParsed : PyParsed → List (String × String)
  | .dict entries => entries
  | .nonDict _ => []

/-- The source's parse cascade: `json.loads` on the whole reply, then — on
a `JSONDecodeError` — the regex search for a brace-delimited substring
followed by a second `json.loads`; `none` when every step fails. -/
def parseCascade (jsonLoads : String → Option PyParsed)
    (braceSearch : String → Option String) (text : String) : Option PyParsed :=
  match jsonLoads text with
  | some v => some v
  | none =>
    match braceSearch text with
    | some sub => jsonLoads sub
    | none => none

/-- The object entries one `extract_parameters_with_llm` call actually
parses out of the model's reply: empty when the model raises, replies
emptily, or nothing parses to a JSON object. -/
def parsedEntries (jsonLoads : String → Option PyParsed)
    (braceSearch : String → Option String) (llm : LLMBehavior) :
    List (String × String) :=
  match llm with
  | .raises _ => []
  | .replies text =>
    if pyStrip text = "" then []
    else
      match parseCascade jsonLoads braceSearch text with
      | some v => entriesOfParsed v
      | none => []

/-- The extraction schema `candidate_key_params` from the source
(descriptions shortened; only the keys matter to the claims). -/
def candidate_key_params : List (String × String) :=
  [("skills", "technologies, programming languages, frameworks"),
   ("years_experience", "total or relevant years of experience"),
   ("location", "expected work location"),
   ("degree_level", "academic degrees or qualifications"),
   ("employment_type", "type of employment")]

/-! ### Vector store (src/vectorstore/chroma_client.py)

A `Document` mirrors the langchain document handed to the client, a
`StoredRec` is one persisted record, and a `Store` maps collection names to
their records.  Metadata values are flattened to strings (the integer page
number is stored via `toString`); only keys and string payloads matter to
the claims. -/

structure Document where
  page_content : String
  metadata : List (String × String)
deriving DecidableEq, Repr

structure StoredRec where
  id : String
  content : String
  meta : List (String × String)
  embedding : List ℚ
deriving DecidableEq, Repr

abbrev Store := List (String × List StoredRec)

def getCollection (s : Store) (name : String) : List StoredRec :=
  (s.lookup name).getD []

/-- `get_or_create_collection`: creates an empty collection when absent. -/
def ensureCollection (s : Store) (name : String) : Store :=
  if (s.map Prod.fst).contains name then s else s ++ [(name, [])]

def setCollection (s : Store) (name : String) (recs : List StoredRec) : Store :=
  (ensureCollection s name).map (fun p => if p.1 = name then (p.1, recs) else p)

/-- The id assignment `d.metadata.get("id") or d.metadata.get("source") or str(len(ids))`:
first truthy value wins (a missing key and an empty string are both falsy). -/
def docAssignedId (d : Document) (idsLen : Nat) : String :=
  match d.metadata.lookup "id" with
  | some s =>
    if s = "" then
      match d.metadata.lookup "source" with
      | some t => if t = "" then toString idsLen else t
      | none => toString idsLen
    else s
  | none =>
    match d.metadata.lookup "source" with
    | some t => if t = "" then toString idsLen else t
    | none => toString idsLen

/-- The per-document loop of `add_documents_with_embeddings`: ids, metadata,
texts and embedding vectors are accumulated in Python lists; the embedding
call can raise (`OllamaEmbeddingError`, carried as its message string), in
which case the loop aborts before anything is written. -/
def addRows (embed : String → Except String (List ℚ)) :
    Nat → List Document → Except String (List StoredRec)
  | _, [] => .ok []
  | n, d :: rest =>
    match embed d.page_content with
    | .error e => .error e
    | .ok v =>
      match addRows embed (n + 1) rest with
      | .error e => .error e
      | .ok rs => .ok (⟨docAssignedId d n, d.page_content, d.metadata, v⟩ :: rs)

/-- `ChromaClient.add_documents_with_embeddings`.  The single
`collection.add(ids=…, metadatas=…, documents=…, embeddings=…)` call after
the loop is modelled from the spec: the backend persists the given records
in the collection.  Duplicate-id handling inside the third-party backend is
backend-defined (the spec defers: "implementers must verify their chosen
storage backend does this"); it is modelled here as a plain append, and no
claim about duplicate-id behavior is settled by this model. -/
def add_documents_with_embeddings (embed : String → Except String (List ℚ))
    (store : Store) (name : String) (docs : List Document) :
    Except String (Store × List String) :=
  let store1 := ensureCollection store name
  match addRows embed 0 docs with
  | .error e => .error e
  | .ok rows =>
    if rows.isEmpty then .ok (store1, [])
    else .ok (setCollection store1 name (getCollection store1 name ++ rows), rows.map (·.id))

/-- Exception semantics of a call to `add_documents_with_embeddings`: when
the call raises, the caller's store is unchanged. -/
def storeAfterAdd (embed : String → Except String (List ℚ))
    (store : Store) (name : String) (docs : List Document) : Store :=
  match add_documents_with_embeddings embed store name docs with
  | .ok (s, _) => s
  | .error _ => store

/-- Modelled from the spec (§4.3): the third-party ChromaDB
`collection.query` contract — the backend reports a distance for each
stored record (`dist` is the backend's distance oracle for a given query
text) and returns the `k` nearest records ordered by ascending distance,
hence at most `k` of them and none when the collection is empty.  The
backend's code is not part of this repository. -/
def backendQuery (dist : String → StoredRec → ℚ) (recs : List StoredRec)
    (q : String) (k : Nat) : List (StoredRec × ℚ) :=
  (List.insertionSort (fun a b => a.2 ≤ b.2) (recs.map (fun r => (r, dist q r)))).take k

/-- The score conversion `1.0 - float(distance) if distance is not None else 0.0`. -/
def scoreOfDistance : Option ℚ → ℚ
  | some d => qSub 1 d
  | none => 0

/-- `ChromaClient.similarity_search`: wraps each backend result back into a
document and converts its distance to a score. -/
def similarity_search (dist : String → StoredRec → ℚ) (store : Store)
    (name q : String) (k : Nat) : List (Document × ℚ) :=
  (backendQuery dist (getCollection store name) q k).map
    (fun rd => (⟨rd.1.content, rd.1.meta⟩, scoreOfDistance (some rd.2)))

/-! ### Orchestration service (src/services/cv_service.py)

An uploaded file is carried together with the passages the document loader
extracts from it (the loaders are external collaborators, spec §6).  The
`Env` record collects the request's effectful collaborators: the generated
ids and timestamp, the outcome of each `extract_parameters_with_llm` call
(a total function of the analyzed text — the call never raises, see the
extractor model), the embedding provider, the backend distance oracle, and
the outcome of building and invoking the summarization chain (`.error`
when any exception is raised there, carrying its message). -/

structure UFile where
  filename : String
  passages : List String
deriving DecidableEq, Repr

structure Candidate where
  candidate_id : String
  score : ℚ
  metadata : List (String × String)
  content_preview : String
deriving DecidableEq, Repr

/-- The response constructed by the service.  The pydantic model
`CVShortlistResponse` silently drops the extra `job_description_id` keyword
(the field is absent from the model); the field is kept here because the
service passes it, but no theorem depends on it. -/
structure Response where
  success : Bool
  message : String
  shortlisted_candidates : List Candidate
  total_candidates_processed : Nat
  jd_summary : Option String
  job_description_id : Option String
deriving DecidableEq, Repr

structure Env where
  jdId : String
  cvId : Nat → String
  jsonLoads : String → Option PyParsed
  braceSearch : String → Option String
  llmReply : String → LLMBehavior
  embed : String → Except String (List ℚ)
  dist : String → StoredRec → ℚ
  summary : Except String String
  now : String

/-- The outcome of one `extract_parameters_with_llm(text, candidate_key_params)`
call under environment `env`. -/
def envExtract (env : Env) (text : String) : ExtractResult :=
  extract_parameters_with_llm env.jsonLoads env.braceSearch (env.llmReply text)
    candidate_key_params

inductive PyErr where
  | valueError (msg : String)
  | runtimeError (msg : String)
  | typeError (msg : String)
  | ollamaError (msg : String)
deriving DecidableEq, Repr

def PyErr.msg : PyErr → String
  | .valueError m => m
  | .runtimeError m => m
  | .typeError m => m
  | .ollamaError m => m

/-- The job-description document built in `_store_job_description`: the
stripped text with base metadata overridden/extended by the extracted
attributes (dict-literal spread semantics). -/
def jdDocOf (env : Env) (jd_text : String) (llmMeta : List (String × String)) : Document :=
  ⟨pyStrip jd_text,
    pyUpdate
      [("id", env.jdId), ("doc_type", "job_description"),
       ("created_at", env.now), ("source", "api_upload")] llmMeta⟩

/-- `CVService._store_job_description`.  The empty check raises `ValueError`
before the `try` block; inside the block, the metadata extraction never
raises by itself, but spreading a non-mapping extraction result into the
document's metadata dict raises `TypeError`, and the embedding/storage call
can raise — the blanket handler wraps any of these into
`RuntimeError("Failed to store job description: " + str(e))`. -/
def store_job_description (env : Env) (store : Store) (jd_text : String) :
    Except PyErr (Store × String) :=
  if pyStrip jd_text = "" then
    .error (.valueError "Job description text cannot be empty")
  else
    match envExtract env (pyStrip jd_text) with
    | .raw _ =>
      .error (.runtimeError
        "Failed to store job description: argument of type is not a mapping")
    | .mapping llmMeta =>
      match add_documents_with_embeddings env.embed store "job_descriptions"
          [jdDocOf env jd_text llmMeta] with
      | .error e => .error (.runtimeError ("Failed to store job description: " ++ e))
      | .ok (store2, _) => .ok (store2, env.jdId)

/-- The job-description storage step of `shortlist_cvs`.  In the source the
inner handler catches `RuntimeError`, checks whether the message contains
"API_KEY", prints "Raising error" and re-raises in both branches — but the
whole inner `try` is wrapped in an outer `except Exception` whose body only
prints a warning, so every failure (including the re-raised
missing-credential one) is swallowed and the request continues with
`stored_jd_id = None`. -/
def jdStep (env : Env) (store : Store) (final_jd : String) : Store × Option String :=
  match store_job_description env store final_jd with
  | .ok (s2, jdid) => (s2, some jdid)
  | .error _ => (store, none)

/-- One iteration of the CV loop: metadata extraction on the stripped
passage, then the document built with the untrimmed passage text.  A
non-mapping extraction result makes the metadata spread raise `TypeError`,
which nothing in this loop catches. -/
def cvDocOfPassage (env : Env) (counter : Nat) (filename : String) (i : Nat)
    (content : String) : Except PyErr Document :=
  match envExtract env (pyStrip content) with
  | .raw _ => .error (.typeError "argument of type is not a mapping")
  | .mapping m =>
    .ok ⟨content,
      pyUpdate
        [("id", env.cvId counter), ("source", filename), ("doc_type", "resume"),
         ("page", toString (i + 1)), ("created_at", env.now)] m⟩

/-- The inner loop over one file's extracted passages; `counter` numbers the
generated ids across the whole request, `i` is the enumerate index inside
the file. -/
def buildPassages (env : Env) (filename : String) :
    Nat → Nat → List String → Except PyErr (List Document)
  | _, _, [] => .ok []
  | counter, i, c :: rest =>
    match cvDocOfPassage env counter filename i c with
    | .error e => .error e
    | .ok d =>
      match buildPassages env filename (counter + 1) (i + 1) rest with
      | .error e => .error e
      | .ok ds => .ok (d :: ds)

/-- The outer loop over the uploaded CV files. -/
def buildFiles (env : Env) : Nat → List UFile → Except PyErr (List Document)
  | _, [] => .ok []
  | counter, f :: rest =>
    match buildPassages env f.filename counter 0 f.passages with
    | .error e => .error e
    | .ok ds =>
      match buildFiles env (counter + f.passages.length) rest with
      | .error e => .error e
      | .ok ds2 => .ok (ds ++ ds2)

def buildCvDocs (env : Env) (cv_files : List UFile) : Except PyErr (List Document) :=
  buildFiles env 0 cv_files

def contentPreview (c : String) : String :=
  pySlice c 800 ++ (if 800 < pyLen c then "..." else "")

/-- The `for idx, (doc, score) in enumerate(results)` formatting loop. -/
def assembleFrom (idx : Nat) : List (Document × ℚ) → List Candidate
  | [] => []
  | dc :: rest =>
    ⟨"candidate_" ++ toString (idx + 1), round3 dc.2, dc.1.metadata,
      contentPreview dc.1.page_content⟩ :: assembleFrom (idx + 1) rest

def assembleCandidates (results : List (Document × ℚ)) : List Candidate :=
  assembleFrom 0 results

/-- The final JD text: the stripped raw text field, superseded — when a JD
file is uploaded — by the file's extracted passages joined with a
blank-line separator and stripped. -/
def finalJdOf (jd_file : Option UFile) (jd_text : Option String) : String :=
  match jd_file with
  | some f => pyStrip (String.intercalate "\n\n" f.passages)
  | none =>
    match jd_text with
    | some t => pyStrip t
    | none => ""

/-- `CVService.shortlist_cvs`.  The CV storage stage and the similarity
search re-raise every exception they catch, so their failures propagate;
the JD storage stage is `jdStep` (fully best-effort, see there); the
summarization stage catches every exception and leaves `jd_summary` null. -/
def shortlist_cvs (env : Env) (store : Store) (num_shortlisted : Nat)
    (llm_provider : String) (jd_file : Option UFile) (jd_text : Option String)
    (cv_files : List UFile) : Except PyErr (Store × Response) :=
  let final_jd := finalJdOf jd_file jd_text
  if final_jd = "" then .error (.valueError "No valid JD content found")
  else
    let step := jdStep env store final_jd
    match buildCvDocs env cv_files with
    | .error e => .error e
    | .ok cv_docs =>
      if cv_docs.isEmpty then .error (.valueError "No valid CV content found")
      else
        match add_documents_with_embeddings env.embed step.1 "resumes" cv_docs with
        | .error e => .error (.ollamaError e)
        | .ok (store2, _) =>
          let results := similarity_search env.dist store2 "resumes" final_jd num_shortlisted
          if results.isEmpty then
            .ok (store2,
              ⟨false, "No matching CVs found", [], cv_docs.length, none, step.2⟩)
          else
            let candidates := assembleCandidates results
            let jd_summary :=
              match env.summary with
              | .ok s => some s
              | .error _ => none
            .ok (store2,
              ⟨true,
                "Successfully shortlisted " ++ toString candidates.length ++ " candidates",
                candidates, cv_docs.length, jd_summary, step.2⟩)

/-- Total number of passages the loaders extract from the uploaded CV files. -/
def passageCount (cv_files : List UFile) : Nat :=
  (cv_files.map (fun f => f.passages.length)).sum

/-- A `json.loads` oracle for the counterexample run: on the model's reply
(abbreviated here to the tag string) it succeeds with a well-formed JSON
object holding the schema key "skills" plus the unrecognized key "extra" —
the parse of a reply such as a JSON object with fields skills and extra. -/
def cxJsonLoads : String → Option PyParsed := fun s =>
  if s = "JSON_WITH_EXTRA_KEY" then
    some (.dict [("skills", "Python"), ("extra", "surprise")])
  else none

def cxResult : List (String × String) :=
  [("skills", "Python"), ("extra", "surprise"), ("years_experience", ""),
   ("location", ""), ("degree_level", ""), ("employment_type", "")]

def cwEmbed : String → Except String (List ℚ) := fun t =>
  if t = "bad passage" then .error "Ollama server connection failed" else .ok [1]

def cwDocs : List Document :=
  [⟨"good passage", [("id", "cv_ok")]⟩, ⟨"bad passage", [("id", "cv_bad")]⟩]

/-- Environment for the C1 run: embedding the job-description text raises a
missing-credential error whose message contains "API_KEY"; embedding the CV
passages succeeds. -/
def envC1 : Env :=
  { jdId := "jd_1"
    cvId := fun n => "cv_" ++ toString n
    jsonLoads := fun _ => none
    braceSearch := fun _ => none
    llmReply := fun _ => .raises "Missing GEMINI_API_KEY. Set it to use Gemini."
    embed := fun t =>
      if t = "backend engineer" then
        .error "OPENAI_API_KEY is required for OpenAI embeddings"
      else .ok [1]
    dist := fun _ _ => 1
    summary := .ok "narrative summary"
    now := "t0" }

/-- A generic witness environment: extraction falls back to defaults,
every embedding succeeds, every backend distance is 1, and the
summarization chain raises a missing-credential error. -/
def wEnv : Env :=
  { jdId := "jd_1"
    cvId := fun n => "cv_" ++ toString n
    jsonLoads := fun _ => none
    braceSearch := fun _ => none
    llmReply := fun _ => .raises "Missing GEMINI_API_KEY. Set it to use Gemini."
    embed := fun _ => .ok [1]
    dist := fun _ _ => 1
    summary := .error "Missing OPENAI_API_KEY. Set it to use OpenAI."
    now := "t0" }

/-- A store whose persistent "resumes" collection already holds two records
from earlier requests. -/
def storeC3 : Store :=
  [("resumes",
    [⟨"r1", "old resume one", [("id", "r1")], [1]⟩,
     ⟨"r2", "old resume two", [("id", "r2")], [1]⟩])]

/-! ## Association-list lemmas -/

theorem lookup_of_not_mem {α β : Type} [BEq α] [LawfulBEq α]
    {l : List (α × β)} {k : α}
    (h : k ∉ l.map Prod.fst) : l.lookup k = none := by
  induction l with
  | nil => rfl
  | cons kv rest ih =>
    obtain ⟨a, b⟩ := kv
    simp only [List.map_cons, List.mem_cons, not_or] at h
    have hk : (k == a) = false := by simpa using h.1
    simp [List.lookup, hk, ih h.2]

theorem lookup_append_some {α β : Type} [BEq α] [LawfulBEq α]
    {l m : List (α × β)} {k : α} {v : β}
    (h : l.lookup k = some v) : (l ++ m).lookup k = some v := by
  induction l with
  | nil => simp [List.lookup] at h
  | cons kv rest ih =>
    obtain ⟨a, b⟩ := kv
    cases hk : (k == a) with
    | true =>
      simp only [List.lookup, hk] at h
      simp only [List.cons_append, List.lookup, hk]
      exact h
    | false =>
      simp only [List.lookup, hk] at h
      simp only [List.cons_append, List.lookup, hk]
      exact ih h

theorem lookup_append_left_none {α β : Type} [BEq α] [LawfulBEq α]
    {l m : List (α × β)} {k : α}
    (h : l.lookup k = none) : (l ++ m).lookup k = m.lookup k := by
  induction l with
  | nil => rfl
  | cons kv rest ih =>
    obtain ⟨a, b⟩ := kv
    cases hk : (k == a) with
    | true => simp [List.lookup, hk] at h
    | false =>
      simp only [List.lookup, hk] at h
      simp only [List.cons_append, List.lookup, hk]
      exact ih h

/-! ## Backfill-loop lemmas (claim C2) -/

theorem backfillKeys_keys_mono (kps : List (String × String)) :
    ∀ (entries : List (String × String)) (k : String),
      k ∈ entries.map Prod.fst → k ∈ (backfillKeys entries kps).map Prod.fst := by
  induction kps with
  | nil => intro entries k h; exact h
  | cons kv rest ih =>
    intro entries k h
    rw [backfillKeys]
    split
    · exact ih entries k h
    · exact ih _ k (by simp [h])

theorem backfillKeys_mem (kps : List (String × String)) :
    ∀ (entries : List (String × String)), ∀ kd ∈ kps,
      kd.1 ∈ (backfillKeys entries kps).map Prod.fst := by
  induction kps with
  | nil => intro _ _ h; exact absurd h (List.not_mem_nil _)
  | cons kv rest ih =>
    intro entries kd hkd
    rw [backfillKeys]
    rcases List.mem_cons.mp hkd with rfl | h
    · split
      next hc => exact backfillKeys_keys_mono rest entries kd.1 (by simpa using hc)
      next hc => exact backfillKeys_keys_mono rest _ kd.1 (by simp)
    · split
      next => exact ih entries kd h
      next => exact ih _ kd h

theorem backfillKeys_lookup_pres (kps : List (String × String)) :
    ∀ (entries : List (String × String)) (k v : String),
      entries.lookup k = some v → (backfillKeys entries kps).lookup k = some v := by
  induction kps with
  | nil => intro _ _ _ h; exact h
  | cons kv rest ih =>
    intro entries k v h
    rw [backfillKeys]
    split
    · exact ih entries k v h
    · exact ih _ k v (lookup_append_some h)

theorem backfillKeys_lookup_missing (kps : List (String × String)) :
    ∀ (entries : List (String × String)), ∀ kd ∈ kps,
      kd.1 ∉ entries.map Prod.fst →
        (backfillKeys entries kps).lookup kd.1 = some "" := by
  induction kps with
  | nil => intro _ _ h; exact absurd h (List.not_mem_nil _)
  | cons kv rest ih =>
    intro entries kd hkd hnot
    rw [backfillKeys]
    by_cases hk : kd.1 = kv.1
    · split
      next hc =>
        exfalso
        have h2 : ¬ ∃ x, (kd.1, x) ∈ entries := by simpa using hnot
        rw [hk] at h2
        exact h2 (by simpa using hc)
      next =>
        refine backfillKeys_lookup_pres rest _ kd.1 "" ?_
        rw [lookup_append_left_none (lookup_of_not_mem hnot), hk]
        simp [List.lookup]
    · rcases List.mem_cons.mp hkd with h | h
      · exact absurd (congrArg Prod.fst h) hk
      · split
        next => exact ih entries kd h hnot
        next => exact ih _ kd h (by simpa [hk] using hnot)


theorem lookup_isSome_of_mem {α β : Type} [BEq α] [LawfulBEq α]
    {l : List (α × β)} {k : α} (h : k ∈ l.map Prod.fst) :
    ∃ v, l.lookup k = some v := by
  induction l with
  | nil => simp at h
  | cons kv rest ih =>
    obtain ⟨a, b⟩ := kv
    by_cases hk : k = a
    · exact ⟨b, by simp [List.lookup, hk]⟩
    · have hb : (k == a) = false := by simpa using hk
      simp only [List.map_cons, List.mem_cons] at h
      rcases h with h | h
      · exact absurd h hk
      · obtain ⟨v, hv⟩ := ih h
        exact ⟨v, by simp [List.lookup, hb, hv]⟩

/-- The backfill loop never touches a key that is already present: its
looked-up value afterwards is the parsed object's own value. -/
theorem backfillKeys_lookup_of_mem (kps entries : List (String × String)) (k : String)
    (h : k ∈ entries.map Prod.fst) :
    (backfillKeys entries kps).lookup k = entries.lookup k := by
  obtain ⟨v, hv⟩ := lookup_isSome_of_mem h
  rw [hv]
  exact backfillKeys_lookup_pres kps entries k v hv

/-- With a non-empty reply, the extractor is exactly the parse cascade
followed by finalization. -/
theorem extract_replies_eq (jsonLoads : String → Option PyParsed)
    (braceSearch : String → Option String) (kp : List (String × String))
    (text : String) (h : ¬ pyStrip text = "") :
    extract_parameters_with_llm jsonLoads braceSearch (.replies text) kp =
      (match parseCascade jsonLoads braceSearch text with
       | some v => finalizeExtract kp v
       | none => .mapping (extractDefaults kp)) := by
  show (if pyStrip text = "" then ExtractResult.mapping (extractDefaults kp) else _) = _
  rw [if_neg h, parseCascade]
  cases hjt : jsonLoads text with
  | some v => rfl
  | none =>
    cases hbs : braceSearch text with
    | some sub =>
      cases hjs : jsonLoads sub with
      | some v => rfl
      | none => rfl
    | none => rfl

/-- Every extractor run either returns the disclosed non-object carve-out
or the backfill of the entries it actually parsed. -/
theorem extract_parameters_with_llm_cases (jsonLoads : String → Option PyParsed)
    (braceSearch : String → Option String) (llm : LLMBehavior)
    (kp : List (String × String)) :
    extract_parameters_with_llm jsonLoads braceSearch llm kp = .raw (.nonDict true) ∨
    extract_parameters_with_llm jsonLoads braceSearch llm kp =
      .mapping (backfillKeys (parsedEntries jsonLoads braceSearch llm) kp) := by
  cases llm with
  | raises msg => right; rfl
  | replies text =>
    by_cases he : pyStrip text = ""
    · right
      show (if pyStrip text = "" then ExtractResult.mapping (extractDefaults kp) else _) = _
      rw [if_pos he]
      rw [show parsedEntries jsonLoads braceSearch (.replies text) = [] from by
        rw [parsedEntries, if_pos he]]
      rfl
    · rw [extract_replies_eq jsonLoads braceSearch kp text he]
      have hpe : parsedEntries jsonLoads braceSearch (.replies text) =
          (match parseCascade jsonLoads braceSearch text with
           | some v => entriesOfParsed v
           | none => []) := by
        rw [parsedEntries, if_neg he]
      cases hpc : parseCascade jsonLoads braceSearch text with
      | none => right; rw [hpe, hpc]; rfl
      | some v =>
        cases v with
        | dict entries => right; rw [hpe, hpc]; rfl
        | nonDict b =>
          cases b with
          | true => left; rfl
          | false => right; rw [hpe, hpc]; rfl

/-- C2 (amended): for every input text, schema, and behavior of the
generative model and JSON parsing, `extract_parameters_with_llm` never
raises past this boundary and — except for the disclosed carve-out of a
non-object JSON value passing Python's membership test for every schema
key, which is returned unchanged — returns exactly the parsed object run
through the backfill loop: a mapping containing at least the schema's keys,
where every schema key absent from the object the call actually parsed
(`parsedEntries`) looks up to the empty string, and every key present in
the parsed object keeps the parsed value. -/
theorem extract_parameters_with_llm_backfilled (jsonLoads : String → Option PyParsed)
    (braceSearch : String → Option String) (llm : LLMBehavior)
    (kp : List (String × String)) :
    (∀ v, extract_parameters_with_llm jsonLoads braceSearch llm kp = .raw v →
      v = PyParsed.nonDict true) ∧
    (∀ m, extract_parameters_with_llm jsonLoads braceSearch llm kp = .mapping m →
      m = backfillKeys (parsedEntries jsonLoads braceSearch llm) kp ∧
      (∀ kd ∈ kp, kd.1 ∈ m.map Prod.fst) ∧
      (∀ kd ∈ kp, kd.1 ∉ (parsedEntries jsonLoads braceSearch llm).map Prod.fst →
        m.lookup kd.1 = some "") ∧
      (∀ k ∈ (parsedEntries jsonLoads braceSearch llm).map Prod.fst,
        m.lookup k = (parsedEntries jsonLoads braceSearch llm).lookup k)) := by
  rcases extract_parameters_with_llm_cases jsonLoads braceSearch llm kp with hk | hk
  · constructor
    · intro v hv
      rw [hk] at hv
      injection hv with h1
      rw [← h1]
    · intro m hm
      rw [hk] at hm
      exact ExtractResult.noConfusion hm
  · constructor
    · intro v hv
      rw [hk] at hv
      exact ExtractResult.noConfusion hv
    · intro m hm
      rw [hk] at hm
      injection hm with h1
      subst h1
      exact ⟨rfl, fun kd hkd => backfillKeys_mem kp _ kd hkd,
        fun kd hkd hmiss => backfillKeys_lookup_missing kp _ kd hkd hmiss,
        fun k hk2 => backfillKeys_lookup_of_mem kp _ k hk2⟩

/-- Witness for C2's amended theorem at a concrete run whose reply parses
to an object holding "skills" but missing the other schema keys: the
returned mapping keeps the parsed value at "skills" and backfills the
missing key "years_experience" with the empty string. -/
theorem extract_parameters_with_llm_backfilled_witness :
    ∃ m, extract_parameters_with_llm cxJsonLoads (fun _ => none)
        (.replies "JSON_WITH_EXTRA_KEY") candidate_key_params = .mapping m ∧
      m = backfillKeys (parsedEntries cxJsonLoads (fun _ => none)
        (.replies "JSON_WITH_EXTRA_KEY")) candidate_key_params ∧
      m.lookup "years_experience" = some "" ∧
      m.lookup "skills" = some "Python" := by
  have h := (extract_parameters_with_llm_backfilled cxJsonLoads (fun _ => none)
    (.replies "JSON_WITH_EXTRA_KEY") candidate_key_params).2 _ rfl
  refine ⟨_, rfl, h.1, ?_, ?_⟩
  · exact h.2.2.1 ("years_experience", "total or relevant years of experience")
      (by decide) (by decide)
  · rw [h.2.2.2 "skills" (by decide)]
    decide

/-- C2 counterexample: with a well-formed model reply carrying an extra
key, the extractor returns a mapping whose key set is NOT exactly the
schema's keys — the unrecognized key "extra" is retained. -/
theorem extract_parameters_with_llm_extra_key :
    extract_parameters_with_llm cxJsonLoads (fun _ => none)
        (.replies "JSON_WITH_EXTRA_KEY") candidate_key_params = .mapping cxResult ∧
    "extra" ∈ cxResult.map Prod.fst ∧
    "extra" ∉ candidate_key_params.map Prod.fst := by
  refine ⟨by decide, by decide, by decide⟩

/-! ## Claim C10: batch storage is all-or-nothing -/

theorem addRows_error {embed : String → Except String (List ℚ)} :
    ∀ (docs : List Document) (n : Nat),
      (∃ d ∈ docs, ∃ e, embed d.page_content = .error e) →
      ∃ e, addRows embed n docs = .error e := by
  intro docs
  induction docs with
  | nil =>
    intro n h
    rcases h with ⟨d, hd, _⟩
    exact absurd hd (List.not_mem_nil _)
  | cons d rest ih =>
    intro n h
    cases hd : embed d.page_content with
    | error e => exact ⟨e, by simp only [addRows, hd]⟩
    | ok v =>
      rcases h with ⟨d2, hd2, e2, he2⟩
      rcases List.mem_cons.mp hd2 with rfl | hmem
      · rw [hd] at he2
        exact Except.noConfusion he2
      · rcases ih (n + 1) ⟨d2, hmem, e2, he2⟩ with ⟨e, he⟩
        exact ⟨e, by simp only [addRows, hd, he]⟩

/-- C10: all embedding vectors of a batch are computed before the single
backend write, so if embedding any document of the batch raises, the call
raises and no document of the call is added — the caller's store is
unchanged. -/
theorem add_documents_with_embeddings_all_or_nothing
    (embed : String → Except String (List ℚ)) (store : Store) (name : String)
    (docs : List Document)
    (h : ∃ d ∈ docs, ∃ e, embed d.page_content = .error e) :
    (∃ e, addRows embed 0 docs = .error e ∧
      add_documents_with_embeddings embed store name docs = .error e) ∧
    storeAfterAdd embed store name docs = store := by
  rcases addRows_error docs 0 h with ⟨e, he⟩
  have hadd : add_documents_with_embeddings embed store name docs = .error e := by
    simp [add_documents_with_embeddings, he]
  exact ⟨⟨e, he, hadd⟩, by simp [storeAfterAdd, hadd]⟩


/-- Witness for C10 at a concrete batch whose second document fails to
embed. -/
theorem add_documents_with_embeddings_all_or_nothing_witness :
    (∃ e, addRows cwEmbed 0 cwDocs = .error e ∧
      add_documents_with_embeddings cwEmbed [("resumes", [])] "resumes" cwDocs = .error e) ∧
    storeAfterAdd cwEmbed [("resumes", [])] "resumes" cwDocs = [("resumes", [])] :=
  add_documents_with_embeddings_all_or_nothing cwEmbed [("resumes", [])] "resumes" cwDocs
    ⟨⟨"bad passage", [("id", "cv_bad")]⟩, by decide,
      "Ollama server connection failed", by rfl⟩

/-! ## Claim C4: similarity score formula -/

/-- C4: the score of every reported backend distance is uniformly
`1.0 - distance`, and a distance above 1 yields a negative score that is
kept as-is in the result list (no clamping). -/
theorem similarity_search_score_formula (dist : String → StoredRec → ℚ)
    (store : Store) (name q : String) (k : Nat) :
    similarity_search dist store name q k =
      (backendQuery dist (getCollection store name) q k).map
        (fun rd => (⟨rd.1.content, rd.1.meta⟩, 1 - rd.2)) ∧
    (∀ d : ℚ, scoreOfDistance (some d) = 1 - d) ∧
    (∀ d : ℚ, 1 < d → scoreOfDistance (some d) < 0) := by
  refine ⟨?_, fun d => by rw [scoreOfDistance, qSub_eq_sub], fun d hd => ?_⟩
  · simp only [similarity_search, scoreOfDistance, qSub_eq_sub]
  · rw [scoreOfDistance, qSub_eq_sub]
    linarith

/-- Witness for C4 at the concrete distance 2 (score 1 - 2, negative). -/
theorem similarity_search_score_formula_witness :
    scoreOfDistance (some 2) = 1 - 2 ∧ scoreOfDistance (some 2) < 0 :=
  ⟨(similarity_search_score_formula (fun _ _ => 2) [] "resumes" "q" 1).2.1 2,
   (similarity_search_score_formula (fun _ _ => 2) [] "resumes" "q" 1).2.2 2 (by norm_num)⟩

/-! ## Claim C8: final job-description text -/

/-- C8 counterexample: with a file passage carrying trailing whitespace,
the final job-description text is NOT the passages joined with a blank-line
separator — the source additionally strips the joined block. -/
theorem finalJd_not_plain_join :
    finalJdOf (some ⟨"jd.txt", ["a "]⟩) (some "raw text") ≠
      String.intercalate "\n\n" ["a "] := by decide

/-- C8 (amended): when a job-description file is supplied, the final
job-description text is the file's extracted passages joined with a
blank-line separator and stripped of leading/trailing whitespace, and it
supersedes the raw text field entirely (same result whatever `jd_text`
holds). -/
theorem finalJd_file_precedence (f : UFile) (jd_text : Option String) :
    finalJdOf (some f) jd_text = pyStrip (String.intercalate "\n\n" f.passages) ∧
    finalJdOf (some f) jd_text = finalJdOf (some f) none :=
  ⟨rfl, rfl⟩

/-! ## Claim C1: the missing-credential error during JD storage -/


/-- C1 (code bug): job-description storage fails with a `RuntimeError`
whose message contains "API_KEY", yet `shortlist_cvs` continues through
candidate processing and returns a successful response with no stored JD id
— the inner handler's re-raise (announced by the source's own
"Raising error" message, and asserted by the spec) is neutralized by the
outer blanket `except Exception` that only prints a warning. -/
theorem shortlist_swallows_missing_credential :
    store_job_description envC1 [] "backend engineer" =
      .error (.runtimeError
        "Failed to store job description: OPENAI_API_KEY is required for OpenAI embeddings") ∧
    strContains
      "Failed to store job description: OPENAI_API_KEY is required for OpenAI embeddings"
      "API_KEY" = true ∧
    ∃ s resp,
      shortlist_cvs envC1 [] 5 "openai" none (some "backend engineer")
        [⟨"cv1.txt", ["python developer"]⟩] = .ok (s, resp) ∧
      resp.success = true ∧ resp.job_description_id = none := by
  refine ⟨by rfl, by decide, _, _, rfl, by decide, by decide⟩

/-! ## Store-state lemmas -/

theorem getCollection_ensure (s : Store) (n m : String) :
    getCollection (ensureCollection s n) m = getCollection s m := by
  rw [ensureCollection]
  split
  · rfl
  · rw [getCollection, getCollection]
    cases hl : s.lookup m with
    | some recs => rw [lookup_append_some hl]
    | none =>
      rw [lookup_append_left_none hl]
      by_cases hm : m = n
      · subst hm; simp [List.lookup]
      · have hb : (m == n) = false := by simpa using hm
        simp [List.lookup, hb]

theorem mem_keys_ensure (s : Store) (n : String) :
    n ∈ (ensureCollection s n).map Prod.fst := by
  rw [ensureCollection]
  split
  next hc => simpa using hc
  next => simp

theorem lookup_set_same (n : String) (recs : List StoredRec) :
    ∀ t : Store, n ∈ t.map Prod.fst →
      (t.map (fun p => if p.1 = n then (p.1, recs) else p)).lookup n = some recs := by
  intro t
  induction t with
  | nil => intro h; simp at h
  | cons p rest ih =>
    intro h
    obtain ⟨a, b⟩ := p
    simp only [List.map_cons, List.mem_cons] at h
    simp only [List.map_cons]
    by_cases ha : a = n
    · subst ha
      rw [if_pos rfl]
      simp [List.lookup]
    · rw [if_neg ha]
      have hmem : n ∈ rest.map Prod.fst := by
        rcases h with h | h
        · exact absurd h.symm ha
        · exact h
      have hb : (n == a) = false := by simpa using Ne.symm ha
      simp [List.lookup, hb, ih hmem]

theorem lookup_set_other (n : String) (recs : List StoredRec) (m : String) (hm : m ≠ n) :
    ∀ t : Store,
      (t.map (fun p => if p.1 = n then (p.1, recs) else p)).lookup m = t.lookup m := by
  intro t
  induction t with
  | nil => rfl
  | cons p rest ih =>
    obtain ⟨a, b⟩ := p
    simp only [List.map_cons]
    by_cases ha : a = n
    · subst ha
      rw [if_pos rfl]
      have hb : (m == a) = false := by simpa using hm
      simp [List.lookup, hb, ih]
    · rw [if_neg ha]
      cases hba : (m == a) with
      | true => simp [List.lookup, hba]
      | false => simp [List.lookup, hba, ih]

theorem ensure_idem (s : Store) (n : String) :
    ensureCollection (ensureCollection s n) n = ensureCollection s n := by
  have h : n ∈ (ensureCollection s n).map Prod.fst := mem_keys_ensure s n
  rw [ensureCollection]
  rw [if_pos (by simpa using h)]

theorem setCollection_ensure (s : Store) (n : String) (recs : List StoredRec) :
    setCollection (ensureCollection s n) n recs = setCollection s n recs := by
  rw [setCollection, setCollection, ensure_idem]

theorem getCollection_set_same (s : Store) (n : String) (recs : List StoredRec) :
    getCollection (setCollection s n recs) n = recs := by
  rw [setCollection, getCollection, lookup_set_same n recs _ (mem_keys_ensure s n)]
  rfl

theorem getCollection_set_other (s : Store) (n : String) (recs : List StoredRec)
    (m : String) (hm : m ≠ n) :
    getCollection (setCollection s n recs) m = getCollection s m := by
  rw [setCollection, getCollection, lookup_set_other n recs m hm]
  show getCollection (ensureCollection s n) m = getCollection s m
  exact getCollection_ensure s n m

theorem addRows_ok_length {embed : String → Except String (List ℚ)} :
    ∀ (docs : List Document) (n : Nat) (rows : List StoredRec),
      addRows embed n docs = .ok rows → rows.length = docs.length := by
  intro docs
  induction docs with
  | nil =>
    intro n rows h
    simp only [addRows] at h
    injection h with h1
    rw [← h1]
    rfl
  | cons d rest ih =>
    intro n rows h
    cases hd : embed d.page_content with
    | error e =>
      simp only [addRows, hd] at h
      exact Except.noConfusion h
    | ok v =>
      cases hr : addRows embed (n + 1) rest with
      | error e =>
        simp only [addRows, hd, hr] at h
        exact Except.noConfusion h
      | ok rs =>
        simp only [addRows, hd, hr] at h
        injection h with h1
        rw [← h1]
        simp [ih (n + 1) rs hr]

/-- What a successful `add_documents_with_embeddings` call does to the
store: the target collection is extended by one row per document (appended
after the rows already present), and every other collection is untouched. -/
theorem add_documents_ok_collections {embed : String → Except String (List ℚ)}
    {store : Store} {name : String} {docs : List Document} {s2 : Store}
    {ids : List String}
    (h : add_documents_with_embeddings embed store name docs = .ok (s2, ids)) :
    (∃ rows, addRows embed 0 docs = .ok rows ∧ rows.length = docs.length ∧
      getCollection s2 name = getCollection store name ++ rows) ∧
    ∀ m, m ≠ name → getCollection s2 m = getCollection store m := by
  cases hr : addRows embed 0 docs with
  | error e =>
    have hcalc : add_documents_with_embeddings embed store name docs = .error e := by
      rw [add_documents_with_embeddings, hr]
    rw [hcalc] at h
    exact Except.noConfusion h
  | ok rows =>
    have hcalc : add_documents_with_embeddings embed store name docs =
        (if rows.isEmpty then Except.ok (ensureCollection store name, ([] : List String))
         else .ok (setCollection (ensureCollection store name) name
             (getCollection (ensureCollection store name) name ++ rows),
           rows.map (fun r => r.id))) := by
      rw [add_documents_with_embeddings, hr]
    by_cases hempty : rows.isEmpty
    · rw [hcalc, if_pos hempty] at h
      injection h with h1
      have hs2 : ensureCollection store name = s2 := congrArg Prod.fst h1
      have hrows : rows = [] := List.isEmpty_iff.mp hempty
      subst hrows
      refine ⟨⟨[], rfl, ?_, ?_⟩, ?_⟩
      · rcases docs with _ | ⟨d, rest⟩
        · rfl
        · exfalso
          cases hd : embed d.page_content with
          | error e => simp only [addRows, hd] at hr; exact Except.noConfusion hr
          | ok v =>
            cases hrr : addRows embed 1 rest with
            | error e => simp only [addRows, hd, hrr] at hr; exact Except.noConfusion hr
            | ok rs =>
              simp only [addRows, hd, hrr] at hr
              injection hr with h2
              exact List.noConfusion h2
      · rw [← hs2, getCollection_ensure, List.append_nil]
      · intro m _
        rw [← hs2, getCollection_ensure]
    · rw [hcalc, if_neg hempty] at h
      injection h with h1
      have hs2 : setCollection (ensureCollection store name) name
          (getCollection (ensureCollection store name) name ++ rows) = s2 :=
        congrArg Prod.fst h1
      refine ⟨⟨rows, rfl, addRows_ok_length docs 0 rows hr, ?_⟩, ?_⟩
      · rw [← hs2, setCollection_ensure, getCollection_set_same, getCollection_ensure]
      · intro m hm
        rw [← hs2, setCollection_ensure, getCollection_set_other _ _ _ _ hm]

/-! ## Backend-query and result-assembly lemmas -/

theorem backendQuery_length_le (dist : String → StoredRec → ℚ) (recs : List StoredRec)
    (q : String) (k : Nat) : (backendQuery dist recs q k).length ≤ k := by
  rw [backendQuery, List.length_take]
  exact Nat.min_le_left _ _

theorem backendQuery_length_le_recs (dist : String → StoredRec → ℚ)
    (recs : List StoredRec) (q : String) (k : Nat) :
    (backendQuery dist recs q k).length ≤ recs.length := by
  rw [backendQuery, List.length_take, List.length_insertionSort, List.length_map]
  exact Nat.min_le_right _ _

theorem backendQuery_sorted (dist : String → StoredRec → ℚ) (recs : List StoredRec)
    (q : String) (k : Nat) :
    List.Pairwise (fun a b : StoredRec × ℚ => a.2 ≤ b.2) (backendQuery dist recs q k) := by
  haveI : IsTotal (StoredRec × ℚ) (fun a b => a.2 ≤ b.2) := ⟨fun a b => le_total a.2 b.2⟩
  haveI : IsTrans (StoredRec × ℚ) (fun a b => a.2 ≤ b.2) :=
    ⟨fun a b c hab hbc => le_trans hab hbc⟩
  have hs := List.sorted_insertionSort (fun a b : StoredRec × ℚ => a.2 ≤ b.2)
    (recs.map (fun r => (r, dist q r)))
  rw [backendQuery]
  exact List.Pairwise.sublist (List.take_sublist _ _) hs

theorem similarity_search_length (dist : String → StoredRec → ℚ) (store : Store)
    (name q : String) (k : Nat) :
    (similarity_search dist store name q k).length =
      (backendQuery dist (getCollection store name) q k).length := by
  rw [similarity_search, List.length_map]

theorem assembleFrom_length (rs : List (Document × ℚ)) :
    ∀ idx, (assembleFrom idx rs).length = rs.length := by
  induction rs with
  | nil => intro idx; rfl
  | cons dc rest ih => intro idx; simp [assembleFrom, ih]

theorem assembleCandidates_length (rs : List (Document × ℚ)) :
    (assembleCandidates rs).length = rs.length :=
  assembleFrom_length rs 0

theorem assembleFrom_get (rs : List (Document × ℚ)) :
    ∀ (idx i : Nat) (h1 : i < (assembleFrom idx rs).length) (h2 : i < rs.length),
      (assembleFrom idx rs).get ⟨i, h1⟩ =
        ⟨"candidate_" ++ toString (idx + i + 1), round3 (rs.get ⟨i, h2⟩).2,
          (rs.get ⟨i, h2⟩).1.metadata, contentPreview (rs.get ⟨i, h2⟩).1.page_content⟩ := by
  induction rs with
  | nil => intro idx i h1 h2; exact absurd h2 (Nat.not_lt_zero i)
  | cons dc rest ih =>
    intro idx i h1 h2
    cases i with
    | zero => rfl
    | succ j =>
      have h1' : j < (assembleFrom (idx + 1) rest).length := by
        simpa [assembleFrom] using h1
      have h2' : j < rest.length := Nat.lt_of_succ_lt_succ h2
      show (assembleFrom (idx + 1) rest).get ⟨j, h1'⟩ = _
      rw [ih (idx + 1) j h1' h2']
      rw [show idx + 1 + j + 1 = idx + (j + 1) + 1 by omega]
      rfl

theorem assembleCandidates_get (rs : List (Document × ℚ)) (i : Nat)
    (h1 : i < (assembleCandidates rs).length) (h2 : i < rs.length) :
    (assembleCandidates rs).get ⟨i, h1⟩ =
      ⟨"candidate_" ++ toString (i + 1), round3 (rs.get ⟨i, h2⟩).2,
        (rs.get ⟨i, h2⟩).1.metadata, contentPreview (rs.get ⟨i, h2⟩).1.page_content⟩ := by
  have h := assembleFrom_get rs 0 i h1 h2
  rw [show 0 + i + 1 = i + 1 by omega] at h
  exact h

theorem contentPreview_long {c : String} (h : 800 < pyLen c) :
    contentPreview c = pySlice c 800 ++ "..." := by
  rw [contentPreview, if_pos h]

theorem contentPreview_short {c : String} (h : ¬ 800 < pyLen c) :
    contentPreview c = c := by
  rw [contentPreview, if_neg h]
  cases c with
  | mk l =>
    show (⟨l.take 800 ++ ([] : List Char)⟩ : String) = ⟨l⟩
    have hle : l.length ≤ 800 := Nat.not_lt.mp (by simpa [pyLen] using h)
    rw [List.append_nil, List.take_of_length_le hle]

/-! ## Candidate-processing lemmas -/

theorem buildPassages_ok_length {env : Env} {filename : String} :
    ∀ (ps : List String) (counter i : Nat) (ds : List Document),
      buildPassages env filename counter i ps = .ok ds → ds.length = ps.length := by
  intro ps
  induction ps with
  | nil =>
    intro counter i ds h
    simp only [buildPassages] at h
    injection h with h1
    rw [← h1]
    rfl
  | cons c rest ih =>
    intro counter i ds h
    cases hd : cvDocOfPassage env counter filename i c with
    | error e => simp only [buildPassages, hd] at h; exact Except.noConfusion h
    | ok d =>
      cases hr : buildPassages env filename (counter + 1) (i + 1) rest with
      | error e => simp only [buildPassages, hd, hr] at h; exact Except.noConfusion h
      | ok ds1 =>
        simp only [buildPassages, hd, hr] at h
        injection h with h1
        rw [← h1]
        simp [ih (counter + 1) (i + 1) ds1 hr]

theorem buildFiles_ok_length {env : Env} :
    ∀ (cvs : List UFile) (counter : Nat) (docs : List Document),
      buildFiles env counter cvs = .ok docs → docs.length = passageCount cvs := by
  intro cvs
  induction cvs with
  | nil =>
    intro counter docs h
    simp only [buildFiles] at h
    injection h with h1
    rw [← h1]
    rfl
  | cons f rest ih =>
    intro counter docs h
    cases hp : buildPassages env f.filename counter 0 f.passages with
    | error e => simp only [buildFiles, hp] at h; exact Except.noConfusion h
    | ok ds =>
      cases hr : buildFiles env (counter + f.passages.length) rest with
      | error e => simp only [buildFiles, hp, hr] at h; exact Except.noConfusion h
      | ok ds2 =>
        simp only [buildFiles, hp, hr] at h
        injection h with h1
        rw [← h1]
        rw [List.length_append, buildPassages_ok_length f.passages counter 0 ds hp,
          ih (counter + f.passages.length) ds2 hr]
        simp [passageCount]

theorem buildCvDocs_ok_length {env : Env} {cvs : List UFile} {docs : List Document}
    (h : buildCvDocs env cvs = .ok docs) : docs.length = passageCount cvs :=
  buildFiles_ok_length cvs 0 docs h

/-- The JD-storage step touches only the "job_descriptions" collection, so
the "resumes" collection (and any other) is unchanged by it. -/
theorem jdStep_preserves (env : Env) (store : Store) (jd : String) (m : String)
    (hm : m ≠ "job_descriptions") :
    getCollection (jdStep env store jd).1 m = getCollection store m := by
  rw [jdStep]
  cases hs : store_job_description env store jd with
  | error e => rfl
  | ok pr =>
    obtain ⟨s2, jdid⟩ := pr
    show getCollection s2 m = getCollection store m
    by_cases hjd : pyStrip jd = ""
    · have : store_job_description env store jd =
          .error (.valueError "Job description text cannot be empty") := by
        rw [store_job_description, if_pos hjd]
      rw [this] at hs
      exact Except.noConfusion hs
    · cases hex : envExtract env (pyStrip jd) with
      | raw v =>
        have : store_job_description env store jd =
            .error (.runtimeError
              "Failed to store job description: argument of type is not a mapping") := by
          rw [store_job_description, if_neg hjd, hex]
        rw [this] at hs
        exact Except.noConfusion hs
      | mapping mm =>
        cases hadd : add_documents_with_embeddings env.embed store "job_descriptions"
            [jdDocOf env jd mm] with
        | error e =>
          have : store_job_description env store jd =
              .error (.runtimeError ("Failed to store job description: " ++ e)) := by
            rw [store_job_description, if_neg hjd]
            simp only [hex, hadd]
          rw [this] at hs
          exact Except.noConfusion hs
        | ok pr2 =>
          obtain ⟨s3, ids⟩ := pr2
          have : store_job_description env store jd = .ok (s3, env.jdId) := by
            rw [store_job_description, if_neg hjd]
            simp only [hex, hadd]
          rw [this] at hs
          injection hs with h1
          have hfst : s3 = s2 := congrArg Prod.fst h1
          rw [← hfst]
          exact (add_documents_ok_collections hadd).2 m hm

/-! ## Pipeline run and inversion -/

/-- Computation of `shortlist_cvs` once validation, candidate processing
and candidate storage have succeeded: the result is determined by the
similarity query on the post-storage store. -/
theorem shortlist_run (env : Env) (store : Store) (n : Nat) (p : String)
    (jdf : Option UFile) (jdt : Option String) (cvs : List UFile)
    (docs : List Document) (s2 : Store) (ids : List String)
    (hjd : ¬ finalJdOf jdf jdt = "")
    (hbd : buildCvDocs env cvs = .ok docs)
    (hde : docs.isEmpty = false)
    (hadd : add_documents_with_embeddings env.embed (jdStep env store (finalJdOf jdf jdt)).1
      "resumes" docs = .ok (s2, ids)) :
    shortlist_cvs env store n p jdf jdt cvs =
      (if (similarity_search env.dist s2 "resumes" (finalJdOf jdf jdt) n).isEmpty then
        .ok (s2, ⟨false, "No matching CVs found", [], docs.length, none,
          (jdStep env store (finalJdOf jdf jdt)).2⟩)
      else
        .ok (s2,
          ⟨true,
            "Successfully shortlisted " ++
              toString (assembleCandidates (similarity_search env.dist s2 "resumes"
                (finalJdOf jdf jdt) n)).length ++ " candidates",
            assembleCandidates (similarity_search env.dist s2 "resumes" (finalJdOf jdf jdt) n),
            docs.length,
            (match env.summary with | .ok t => some t | .error _ => none),
            (jdStep env store (finalJdOf jdf jdt)).2⟩)) := by
  rw [shortlist_cvs]
  rw [if_neg hjd, hbd]
  show (if docs.isEmpty then _ else _) = _
  rw [Bool.eq_false_iff] at hde
  rw [if_neg (by simpa using hde), hadd]

/-! ## Claim C6: empty query result is a successful response -/

/-- C6: when a shortlist request reaches the similarity query and the query
yields zero matches, the request terminates successfully — no error is
raised — with success = false, an empty candidate list, and
total_candidates_processed equal to the number of candidate passages
processed in the request, which is positive. -/
theorem shortlist_empty_query_success (env : Env) (store : Store) (n : Nat) (p : String)
    (jdf : Option UFile) (jdt : Option String) (cvs : List UFile)
    (docs : List Document) (s2 : Store) (ids : List String)
    (hjd : ¬ finalJdOf jdf jdt = "")
    (hbd : buildCvDocs env cvs = .ok docs)
    (hde : docs.isEmpty = false)
    (hadd : add_documents_with_embeddings env.embed (jdStep env store (finalJdOf jdf jdt)).1
      "resumes" docs = .ok (s2, ids))
    (hq : similarity_search env.dist s2 "resumes" (finalJdOf jdf jdt) n = []) :
    shortlist_cvs env store n p jdf jdt cvs =
      .ok (s2, ⟨false, "No matching CVs found", [], docs.length, none,
        (jdStep env store (finalJdOf jdf jdt)).2⟩) ∧
    docs.length = passageCount cvs ∧ 0 < docs.length := by
  refine ⟨?_, buildCvDocs_ok_length hbd, ?_⟩
  · rw [shortlist_run env store n p jdf jdt cvs docs s2 ids hjd hbd hde hadd, hq]
    rfl
  · cases docs with
    | nil => simp at hde
    | cons d rest => simp

/-- Witness for C6: a concrete request whose similarity query returns zero
matches (requested result count 0), ending in the empty-but-successful
response. -/
theorem shortlist_empty_query_success_witness :
    ∃ docs s2 ids,
      buildCvDocs wEnv [⟨"a.txt", ["cv passage"]⟩] = .ok docs ∧
      add_documents_with_embeddings wEnv.embed
        (jdStep wEnv [] (finalJdOf none (some "jd text"))).1 "resumes" docs = .ok (s2, ids) ∧
      shortlist_cvs wEnv [] 0 "openai" none (some "jd text") [⟨"a.txt", ["cv passage"]⟩] =
        .ok (s2, ⟨false, "No matching CVs found", [], docs.length, none,
          (jdStep wEnv [] (finalJdOf none (some "jd text"))).2⟩) ∧
      docs.length = passageCount [⟨"a.txt", ["cv passage"]⟩] ∧ 0 < docs.length := by
  refine ⟨_, _, _, rfl, rfl, ?_⟩
  exact shortlist_empty_query_success wEnv [] 0 "openai" none (some "jd text")
    [⟨"a.txt", ["cv passage"]⟩] _ _ _ (by decide) rfl (by rfl) rfl (by rfl)

/-! ## Claim C9: summarization is best-effort -/

/-- C9: when a shortlist request reaches summarization (the query returned
matches) and building or invoking the summarization chain raises any
exception, the exception is caught: the ranked success response is still
returned, with jd_summary null and the assembled candidate list non-empty. -/
theorem shortlist_summary_best_effort (env : Env) (store : Store) (n : Nat) (p : String)
    (jdf : Option UFile) (jdt : Option String) (cvs : List UFile)
    (docs : List Document) (s2 : Store) (ids : List String) (msg : String)
    (hjd : ¬ finalJdOf jdf jdt = "")
    (hbd : buildCvDocs env cvs = .ok docs)
    (hde : docs.isEmpty = false)
    (hadd : add_documents_with_embeddings env.embed (jdStep env store (finalJdOf jdf jdt)).1
      "resumes" docs = .ok (s2, ids))
    (hq : (similarity_search env.dist s2 "resumes" (finalJdOf jdf jdt) n).isEmpty = false)
    (hsum : env.summary = .error msg) :
    shortlist_cvs env store n p jdf jdt cvs =
      .ok (s2,
        ⟨true,
          "Successfully shortlisted " ++
            toString (assembleCandidates (similarity_search env.dist s2 "resumes"
              (finalJdOf jdf jdt) n)).length ++ " candidates",
          assembleCandidates (similarity_search env.dist s2 "resumes" (finalJdOf jdf jdt) n),
          docs.length, none, (jdStep env store (finalJdOf jdf jdt)).2⟩) ∧
    (assembleCandidates (similarity_search env.dist s2 "resumes"
      (finalJdOf jdf jdt) n)).length ≠ 0 := by
  constructor
  · rw [shortlist_run env store n p jdf jdt cvs docs s2 ids hjd hbd hde hadd]
    rw [Bool.eq_false_iff] at hq
    rw [if_neg (by simpa using hq), hsum]
  · rw [assembleCandidates_length]
    rw [Bool.eq_false_iff] at hq
    intro hzero
    exact hq (by simpa [List.isEmpty_iff] using List.eq_nil_of_length_eq_zero hzero)

/-- Witness for C9: a concrete request whose summarization chain raises a
missing-credential error; the ranked response is still returned with a null
summary. -/
theorem shortlist_summary_best_effort_witness :
    ∃ docs s2 ids,
      buildCvDocs wEnv [⟨"a.txt", ["cv passage"]⟩] = .ok docs ∧
      add_documents_with_embeddings wEnv.embed
        (jdStep wEnv [] (finalJdOf none (some "jd text"))).1 "resumes" docs = .ok (s2, ids) ∧
      shortlist_cvs wEnv [] 1 "openai" none (some "jd text") [⟨"a.txt", ["cv passage"]⟩] =
        .ok (s2,
          ⟨true,
            "Successfully shortlisted " ++
              toString (assembleCandidates (similarity_search wEnv.dist s2 "resumes"
                (finalJdOf none (some "jd text")) 1)).length ++ " candidates",
            assembleCandidates (similarity_search wEnv.dist s2 "resumes"
              (finalJdOf none (some "jd text")) 1),
            docs.length, none, (jdStep wEnv [] (finalJdOf none (some "jd text"))).2⟩) ∧
      (assembleCandidates (similarity_search wEnv.dist s2 "resumes"
        (finalJdOf none (some "jd text")) 1)).length ≠ 0 := by
  refine ⟨_, _, _, rfl, rfl, ?_⟩
  exact shortlist_summary_best_effort wEnv [] 1 "openai" none (some "jd text")
    [⟨"a.txt", ["cv passage"]⟩] _ _ _ "Missing OPENAI_API_KEY. Set it to use OpenAI."
    (by decide) rfl (by rfl) rfl (by rfl) rfl

/-! ## Inversion of a successful run -/

/-- Any successful `shortlist_cvs` run decomposes into: non-empty final JD
text, successfully built candidate documents (at least one), a successful
candidate-storage call producing the returned store, and a response whose
processed count is the document count and whose candidate list is the
assembly of the similarity query on the returned store. -/
theorem shortlist_ok_inv (env : Env) (store : Store) (n : Nat) (p : String)
    (jdf : Option UFile) (jdt : Option String) (cvs : List UFile)
    (s : Store) (resp : Response)
    (h : shortlist_cvs env store n p jdf jdt cvs = .ok (s, resp)) :
    ∃ docs ids,
      (¬ finalJdOf jdf jdt = "") ∧
      buildCvDocs env cvs = .ok docs ∧ docs.isEmpty = false ∧
      add_documents_with_embeddings env.embed (jdStep env store (finalJdOf jdf jdt)).1
        "resumes" docs = .ok (s, ids) ∧
      resp.total_candidates_processed = docs.length ∧
      resp.shortlisted_candidates =
        assembleCandidates (similarity_search env.dist s "resumes" (finalJdOf jdf jdt) n) := by
  by_cases hjd : finalJdOf jdf jdt = ""
  · have hcalc : shortlist_cvs env store n p jdf jdt cvs =
        .error (.valueError "No valid JD content found") := by
      rw [shortlist_cvs, if_pos hjd]
    rw [hcalc] at h
    exact Except.noConfusion h
  · cases hbd : buildCvDocs env cvs with
    | error e =>
      have hcalc : shortlist_cvs env store n p jdf jdt cvs = .error e := by
        rw [shortlist_cvs, if_neg hjd, hbd]
      rw [hcalc] at h
      exact Except.noConfusion h
    | ok docs =>
      cases hde : docs.isEmpty with
      | true =>
        have hcalc : shortlist_cvs env store n p jdf jdt cvs =
            .error (.valueError "No valid CV content found") := by
          rw [shortlist_cvs, if_neg hjd, hbd]
          show (if docs.isEmpty then _ else _) = _
          rw [if_pos hde]
        rw [hcalc] at h
        exact Except.noConfusion h
      | false =>
        cases hadd : add_documents_with_embeddings env.embed
            (jdStep env store (finalJdOf jdf jdt)).1 "resumes" docs with
        | error e =>
          have hcalc : shortlist_cvs env store n p jdf jdt cvs = .error (.ollamaError e) := by
            rw [shortlist_cvs, if_neg hjd, hbd]
            show (if docs.isEmpty then _ else _) = _
            rw [Bool.eq_false_iff] at hde
            rw [if_neg (by simpa using hde), hadd]
          rw [hcalc] at h
          exact Except.noConfusion h
        | ok pr =>
          obtain ⟨s2, ids⟩ := pr
          have hrun := shortlist_run env store n p jdf jdt cvs docs s2 ids hjd hbd hde hadd
          rw [hrun] at h
          by_cases hq : (similarity_search env.dist s2 "resumes" (finalJdOf jdf jdt) n).isEmpty
          · rw [if_pos hq] at h
            injection h with h1
            injection h1 with hfst hsnd
            subst hfst
            subst hsnd
            refine ⟨docs, ids, hjd, rfl, hde, hadd, rfl, ?_⟩
            show ([] : List Candidate) = _
            rw [List.isEmpty_iff.mp hq]
            rfl
          · rw [if_neg hq] at h
            injection h with h1
            injection h1 with hfst hsnd
            subst hfst
            subst hsnd
            exact ⟨docs, ids, hjd, rfl, hde, hadd, rfl, rfl⟩

/-! ## Claim C3 -/

/-- C3 (amended): every successful shortlist response returns at most
`num_shortlisted` candidates, ordered by ascending stored distance (the
underlying query results carry pairwise non-decreasing distances and the
response is their in-order assembly); when the persistent "resumes"
collection is empty at the start of the request, the count is additionally
bounded by min(num_shortlisted, total_candidates_processed). -/
theorem shortlist_count_and_ordering (env : Env) (store : Store) (n : Nat) (p : String)
    (jdf : Option UFile) (jdt : Option String) (cvs : List UFile)
    (s : Store) (resp : Response)
    (h : shortlist_cvs env store n p jdf jdt cvs = .ok (s, resp)) :
    resp.shortlisted_candidates.length ≤ n ∧
    (getCollection store "resumes" = [] →
      resp.shortlisted_candidates.length ≤ min n resp.total_candidates_processed) ∧
    List.Pairwise (fun a b : StoredRec × ℚ => a.2 ≤ b.2)
      (backendQuery env.dist (getCollection s "resumes") (finalJdOf jdf jdt) n) ∧
    resp.shortlisted_candidates =
      assembleCandidates (similarity_search env.dist s "resumes" (finalJdOf jdf jdt) n) := by
  obtain ⟨docs, ids, hjd, hbd, hde, hadd, htot, hcand⟩ :=
    shortlist_ok_inv env store n p jdf jdt cvs s resp h
  have hlen : resp.shortlisted_candidates.length =
      (backendQuery env.dist (getCollection s "resumes") (finalJdOf jdf jdt) n).length := by
    rw [hcand, assembleCandidates_length, similarity_search_length]
  refine ⟨?_, ?_, backendQuery_sorted _ _ _ _, hcand⟩
  · rw [hlen]
    exact backendQuery_length_le _ _ _ _
  · intro hemp
    obtain ⟨⟨rows, _, hrlen, hcoll⟩, _⟩ := add_documents_ok_collections hadd
    have hpres : getCollection (jdStep env store (finalJdOf jdf jdt)).1 "resumes" =
        getCollection store "resumes" :=
      jdStep_preserves env store (finalJdOf jdf jdt) "resumes" (by decide)
    have hcolllen : (getCollection s "resumes").length = docs.length := by
      rw [hcoll, hpres, hemp, List.nil_append, hrlen]
    rw [hlen, htot]
    refine le_min (backendQuery_length_le _ _ _ _) ?_
    calc (backendQuery env.dist (getCollection s "resumes") (finalJdOf jdf jdt) n).length
        ≤ (getCollection s "resumes").length := backendQuery_length_le_recs _ _ _ _
      _ = docs.length := hcolllen

/-- Witness for C3's amended theorem at a concrete two-passage request. -/
theorem shortlist_count_and_ordering_witness :
    ∃ s resp,
      shortlist_cvs wEnv [] 2 "openai" none (some "jd text") [⟨"a.txt", ["p1", "p2"]⟩] =
        .ok (s, resp) ∧
      (resp.shortlisted_candidates.length ≤ 2 ∧
        (getCollection ([] : Store) "resumes" = [] →
          resp.shortlisted_candidates.length ≤ min 2 resp.total_candidates_processed) ∧
        List.Pairwise (fun a b : StoredRec × ℚ => a.2 ≤ b.2)
          (backendQuery wEnv.dist (getCollection s "resumes")
            (finalJdOf none (some "jd text")) 2) ∧
        resp.shortlisted_candidates =
          assembleCandidates (similarity_search wEnv.dist s "resumes"
            (finalJdOf none (some "jd text")) 2)) := by
  refine ⟨_, _, rfl, ?_⟩
  exact shortlist_count_and_ordering wEnv [] 2 "openai" none (some "jd text")
    [⟨"a.txt", ["p1", "p2"]⟩] _ _ rfl

/-- C3 counterexample: with two records already persisted in the "resumes"
collection from earlier requests, a request processing a single CV passage
with num_shortlisted = 2 returns 2 candidates although
min(num_shortlisted, total_candidates_processed) = 1 — the claimed bound
fails because the query runs over the whole persistent collection. -/
theorem shortlist_exceeds_processed_bound :
    ∃ s resp,
      shortlist_cvs wEnv storeC3 2 "openai" none (some "jd text") [⟨"a.txt", ["new cv"]⟩] =
        .ok (s, resp) ∧
      resp.total_candidates_processed = 1 ∧
      resp.shortlisted_candidates.length = 2 ∧
      ¬ resp.shortlisted_candidates.length ≤ min 2 resp.total_candidates_processed := by
  refine ⟨_, _, rfl, by decide, by decide, by decide⟩

/-! ## Claim C7 -/

/-- C7: in the assembled response, the candidate at 0-based rank i has
candidate_id "candidate_" followed by i+1, score equal to the stored
similarity score rounded to 3 decimal places, and a content preview that is
the first 800 characters of the record's content, with the truncation
marker appended exactly when the content is longer than 800 characters. -/
theorem shortlist_result_formatting (env : Env) (store : Store) (n : Nat) (p : String)
    (jdf : Option UFile) (jdt : Option String) (cvs : List UFile)
    (s : Store) (resp : Response)
    (h : shortlist_cvs env store n p jdf jdt cvs = .ok (s, resp)) :
    ∀ i (hi : i < resp.shortlisted_candidates.length),
      ∃ hr : i < (similarity_search env.dist s "resumes" (finalJdOf jdf jdt) n).length,
        resp.shortlisted_candidates.get ⟨i, hi⟩ =
          ⟨"candidate_" ++ toString (i + 1),
            round3 ((similarity_search env.dist s "resumes"
              (finalJdOf jdf jdt) n).get ⟨i, hr⟩).2,
            ((similarity_search env.dist s "resumes"
              (finalJdOf jdf jdt) n).get ⟨i, hr⟩).1.metadata,
            contentPreview ((similarity_search env.dist s "resumes"
              (finalJdOf jdf jdt) n).get ⟨i, hr⟩).1.page_content⟩ ∧
        (800 < pyLen ((similarity_search env.dist s "resumes"
            (finalJdOf jdf jdt) n).get ⟨i, hr⟩).1.page_content →
          contentPreview ((similarity_search env.dist s "resumes"
              (finalJdOf jdf jdt) n).get ⟨i, hr⟩).1.page_content =
            pySlice ((similarity_search env.dist s "resumes"
              (finalJdOf jdf jdt) n).get ⟨i, hr⟩).1.page_content 800 ++ "...") ∧
        (¬ 800 < pyLen ((similarity_search env.dist s "resumes"
            (finalJdOf jdf jdt) n).get ⟨i, hr⟩).1.page_content →
          contentPreview ((similarity_search env.dist s "resumes"
              (finalJdOf jdf jdt) n).get ⟨i, hr⟩).1.page_content =
            ((similarity_search env.dist s "resumes"
              (finalJdOf jdf jdt) n).get ⟨i, hr⟩).1.page_content) := by
  obtain ⟨docs, ids, hjd, hbd, hde, hadd, htot, hcand⟩ :=
    shortlist_ok_inv env store n p jdf jdt cvs s resp h
  intro i hi
  have hi2 : i < (assembleCandidates (similarity_search env.dist s "resumes"
      (finalJdOf jdf jdt) n)).length := by
    rw [← hcand]; exact hi
  have hr : i < (similarity_search env.dist s "resumes" (finalJdOf jdf jdt) n).length := by
    rw [← assembleCandidates_length]; exact hi2
  refine ⟨hr, ?_, fun hlong => contentPreview_long hlong,
    fun hshort => contentPreview_short hshort⟩
  rw [List.get_of_eq hcand ⟨i, hi⟩]
  exact assembleCandidates_get _ i _ hr

/-- Witness for C7 at a concrete single-candidate run, rank 0. -/
theorem shortlist_result_formatting_witness :
    ∃ s resp,
      shortlist_cvs wEnv [] 1 "openai" none (some "jd text") [⟨"a.txt", ["cv passage"]⟩] =
        .ok (s, resp) ∧
      resp.shortlisted_candidates.length = 1 ∧
      ∀ hi : 0 < resp.shortlisted_candidates.length,
        ∃ hr : 0 < (similarity_search wEnv.dist s "resumes"
            (finalJdOf none (some "jd text")) 1).length,
          resp.shortlisted_candidates.get ⟨0, hi⟩ =
            ⟨"candidate_" ++ toString (0 + 1),
              round3 ((similarity_search wEnv.dist s "resumes"
                (finalJdOf none (some "jd text")) 1).get ⟨0, hr⟩).2,
              ((similarity_search wEnv.dist s "resumes"
                (finalJdOf none (some "jd text")) 1).get ⟨0, hr⟩).1.metadata,
              contentPreview ((similarity_search wEnv.dist s "resumes"
                (finalJdOf none (some "jd text")) 1).get ⟨0, hr⟩).1.page_content⟩ ∧
          (800 < pyLen ((similarity_search wEnv.dist s "resumes"
              (finalJdOf none (some "jd text")) 1).get ⟨0, hr⟩).1.page_content →
            contentPreview ((similarity_search wEnv.dist s "resumes"
                (finalJdOf none (some "jd text")) 1).get ⟨0, hr⟩).1.page_content =
              pySlice ((similarity_search wEnv.dist s "resumes"
                (finalJdOf none (some "jd text")) 1).get ⟨0, hr⟩).1.page_content 800 ++ "...") ∧
          (¬ 800 < pyLen ((similarity_search wEnv.dist s "resumes"
              (finalJdOf none (some "jd text")) 1).get ⟨0, hr⟩).1.page_content →
            contentPreview ((similarity_search wEnv.dist s "resumes"
                (finalJdOf none (some "jd text")) 1).get ⟨0, hr⟩).1.page_content =
              ((similarity_search wEnv.dist s "resumes"
                (finalJdOf none (some "jd text")) 1).get ⟨0, hr⟩).1.page_content) := by
  refine ⟨_, _, rfl, by decide, ?_⟩
  intro hi
  exact shortlist_result_formatting wEnv [] 1 "openai" none (some "jd text")
    [⟨"a.txt", ["cv passage"]⟩] _ _ rfl 0 hi

end TrueHire
